import Mathlib

/-!
Verification of the wmienumall repository (src/wmienumall.cxx).

The program walks the WMI class/instance/property tree through COM calls and
collects the matching records into a flat result object.  The COM/WMI layer is
external to the repository, so it is embedded as explicit data: a `World`
records what each OS call would return (including injected failures), and every
wrapper function of the source is translated into a Lean function over that
data.  C++ exceptions (`checkResult` throwing `std::runtime_error`,
`std::bad_optional_access` from `optional::value()`, `std::regex_error` from
regex construction) become `Except String` values; the message strings play the
role of `what()`.

The file models both definitions of `WmiEnum_new` present in the source: the
first one (whose catch handler only sets the error field) and the second
variant (whose catch handler additionally calls `output->instances.clear()`).
-/

namespace Wmi

/-- A constructed `std::wregex` together with its construction outcome.
`valid = false` models a pattern whose `std::wregex` constructor throws
`std::regex_error`; `accepts` is the whole-string `std::regex_match` test
against the compiled pattern. -/
structure Pattern where
  valid : Bool
  accepts : String → Bool

/-- The message carried by the `std::regex_error` thrown when a pattern is
invalid (the concrete `what()` text is implementation defined; it is a fixed
placeholder here). -/
def regexErrorMsg : String := "regex_error"

/-- The `what()` text of the `std::bad_optional_access` thrown by
`item.get(L"__CLASS").value()` when `IWbemClassObject::Get` failed and the
optional is empty (src/wmienumall.cxx line 443). -/
def badOptionalMsg : String := "bad optional access"

/-- `VT_BSTR` (the VARTYPE of a BSTR string, numerically 8): the mask the
code tests the variant type against at src/wmienumall.cxx line 227. -/
def VT_BSTR : Nat := 8

/-- `VT_I4` (a 32-bit integer, numerically 3): an element VARTYPE whose bits
do not contain `VT_BSTR`. -/
def VT_I4 : Nat := 3

/-- `VT_BOOL` (numerically 11): an element VARTYPE that is not the string
type but whose bit pattern (1011) contains the `VT_BSTR` bit (1000). -/
def VT_BOOL : Nat := 11

/-- The value held by a `VARIANT` as far as `Variant::getStrings`
(src/wmienumall.cxx lines 215-252) observes it:
* `vempty`/`vnull` are `VT_EMPTY`/`VT_NULL`;
* `scalar conv` is any other non-array type, with `conv` the outcome of
  `VariantChangeType(..., VT_BSTR)` (an error models a failed conversion,
  which `checkResult` turns into an exception);
* `varray elemType read` is a value whose vt has the `VT_ARRAY` flag
  (0x2000); `elemType` is the element VARTYPE, i.e. the low bits of the vt
  (the `VT_ARRAY` and `VT_BYREF` flags, 0x2000 and 0x4000, do not overlap
  them), and `read` is the outcome of reading the SAFEARRAY data as BSTR
  pointers (`SafeArrayAccessData`/`GetLBound`/`GetUBound`, whose failures
  throw), one string per element in array order.  The `VT_BYREF`
  indirection only changes which pointer is dereferenced and is invisible at
  this level. -/
inductive VarValue where
  | vempty : VarValue
  | vnull : VarValue
  | scalar (conv : Except String String) : VarValue
  | varray (elemType : Nat) (read : Except String (List String)) : VarValue

/-- `Variant::getStrings` (src/wmienumall.cxx lines 215-252): for an array
the code's test at line 227 is the bitmask `type & VT_BSTR` — not an
equality on the element type — so any array whose element VARTYPE contains
the `VT_BSTR` bit takes the BSTR branch and yields its SAFEARRAY data read
as BSTR strings, while an array whose element VARTYPE lacks that bit yields
nothing; a non-array, non-empty, non-null value is converted to one string;
`VT_EMPTY` and `VT_NULL` yield no strings. -/
def getStrings : VarValue → Except String (List String)
  | .vempty => Except.ok []
  | .vnull => Except.ok []
  | .scalar conv =>
    match conv with
    | Except.error e => Except.error e
    | Except.ok s => Except.ok [s]
  | .varray elemType read =>
    if (elemType &&& VT_BSTR) ≠ 0 then
      match read with
      | Except.error e => Except.error e
      | Except.ok elems => Except.ok elems
    else Except.ok []

/-- The join performed by `Variant::getString` (src/wmienumall.cxx lines
261-275): first string, then `", "` before each further string; the empty
list joins to the empty string. -/
def joinStrings : List String → String
  | [] => ""
  | s :: rest => rest.foldl (fun acc t => acc ++ ", " ++ t) s

/-- `Variant::getString` (src/wmienumall.cxx lines 261-275): the strings of
the variant joined by `", "`. -/
def getString (v : VarValue) : Except String String :=
  match getStrings v with
  | Except.error e => Except.error e
  | Except.ok l => Except.ok (joinStrings l)

/-- One (name, value) pair produced by `IWbemClassObject::Next` during
property enumeration. -/
structure PropEntry where
  name : String
  value : VarValue

/-- The sequence of outcomes of successive `IWbemClassObject::Next` calls on
one instance: an `Except.error` models a failing HRESULT (rethrown by
`checkResult`), and the end of the list models `WBEM_S_NO_MORE_DATA`. -/
abbrev PropSource := List (Except String PropEntry)

/-- `WbemClass::next` (src/wmienumall.cxx lines 321-338): one
`IWbemClassObject::Next` call.  `WBEM_S_NO_MORE_DATA` (the exhausted source)
yields `none`; a failing HRESULT is an exception; otherwise the (name, value)
pair and the rest of the source are returned. -/
def WbemClass_next (src : PropSource) : Except String (Option (PropEntry × PropSource)) :=
  match src with
  | [] => Except.ok none
  | Except.error e :: _ => Except.error e
  | Except.ok pe :: rest => Except.ok (some (pe, rest))

/-- The sequence of outcomes of successive `IEnumWbemClassObject::Next`
round-trips: each entry is either a failing HRESULT or the objects the OS
hands back for that call; an exhausted list means every further call returns
zero objects. -/
abbrev EnumSource (α : Type) := List (Except String (List α))

/-- `EnumWbemClasses::next` (src/wmienumall.cxx lines 389-403): one
`IEnumWbemClassObject::Next(WBEM_INFINITE, 128, apObj, &returned)` round-trip.
The 128-slot buffer and `uCount = 128` bound what one call can deliver, hence
the `take 128`; `returned = 0` yields `none` (end of data), a failing HRESULT
is an exception, and otherwise the delivered page is returned. -/
def EnumWbemClasses_next {α : Type} (src : EnumSource α) :
    Except String (Option (List α) × EnumSource α) :=
  match src with
  | [] => Except.ok (none, [])
  | Except.error e :: _ => Except.error e
  | Except.ok page :: rest =>
    let delivered := page.take 128
    Except.ok (if delivered.isEmpty then none else some delivered, rest)

/-- The pages produced by calling `EnumWbemClasses::next` in a loop
(`for (auto items = enumClasses.next(); items; items = enumClasses.next())`,
src/wmienumall.cxx lines 436 and 452): the successful pages in order, and the
error of the first failing round-trip if the loop ended in one.  A call that
delivers zero objects ends the loop normally. -/
def enumPages {α : Type} : EnumSource α → List (List α) × Option String
  | [] => ([], none)
  | Except.error e :: _ => ([], some e)
  | Except.ok page :: rest =>
    if (page.take 128).isEmpty then ([], none)
    else
      let r := enumPages rest
      (page.take 128 :: r.1, r.2)

/-- One class object as seen through `item.get(L"__CLASS")`
(src/wmienumall.cxx line 443): `none` models a failed
`IWbemClassObject::Get`, in which case `.value()` on the empty optional
throws `std::bad_optional_access`; `some name` is the class name read from
the returned BSTR variant. -/
structure ClassObj where
  getClassRes : Option String
deriving DecidableEq

/-- One instance object: the outcome of `BeginEnumeration`
(src/wmienumall.cxx line 460; `some e` models a failing HRESULT) and the
source feeding its property enumeration. -/
structure InstObj where
  beginErr : Option String
  props : PropSource

/-- Everything the COM/WMI environment decides during one `WmiEnum_new` call:
the outcome of constructing `Services` (COM init, COM security, locator
creation, `ConnectServer`), of `setProxyBlanket`, of `CreateClassEnum`, the
data behind the class enumerator, and per class name the outcome of
`CreateInstanceEnum` and the data behind that instance enumerator. -/
structure World where
  servicesErr : Option String
  blanketErr : Option String
  classEnumErr : Option String
  classCalls : EnumSource ClassObj
  instEnumErr : String → Option String
  instCalls : String → EnumSource InstObj

/-- `WmiInstance` (src/wmienumall.cxx lines 409-412): one output record. -/
structure WmiInstance where
  className : String
  properties : List (String × String)
deriving DecidableEq

/-- `WmiEnum` (src/wmienumall.cxx lines 417-420): the result object. -/
structure WmiEnum where
  error : Option String
  instances : List WmiInstance
deriving DecidableEq

/-- The property loop of `WmiEnum_new` (src/wmienumall.cxx lines 461-467),
with `WbemClass::next` inlined: for each property delivered by `Next`, if the
name whole-matches the property pattern, record
`(name, variant.getString())`; a failing `Next` or a failing `getString`
throws; `WBEM_S_NO_MORE_DATA` ends the loop. -/
def propLoop (pp : Pattern) : PropSource → Except String (List (String × String))
  | [] => Except.ok []
  | Except.error e :: _ => Except.error e
  | Except.ok pe :: rest =>
    if pp.accepts pe.name then
      match getString pe.value with
      | Except.error e => Except.error e
      | Except.ok s =>
        match propLoop pp rest with
        | Except.error e => Except.error e
        | Except.ok l => Except.ok ((pe.name, s) :: l)
    else propLoop pp rest

/-- Processing of one instance inside the walk (src/wmienumall.cxx lines
454-468): build a `WmiInstance` with the enclosing class name, run
`beginEnumeration` (which can throw) and the property loop; the record is
completed only if the whole property loop succeeds, because the append to
`output->instances` happens after the loop. -/
def processInstance (pp : Pattern) (cn : String) (inst : InstObj) :
    Except String WmiInstance :=
  match inst.beginErr with
  | some e => Except.error e
  | none =>
    match propLoop pp inst.props with
    | Except.error e => Except.error e
    | Except.ok props => Except.ok ⟨cn, props⟩

/-- The records appended to `output->instances` by processing the instances of
one delivered page in order, together with the error if one instance threw
(later instances of the page are then not processed). -/
def instItems (pp : Pattern) (cn : String) : List InstObj → List WmiInstance × Option String
  | [] => ([], none)
  | i :: rest =>
    match processInstance pp cn i with
    | Except.error e => ([], some e)
    | Except.ok wi =>
      let r := instItems pp cn rest
      (wi :: r.1, r.2)

/-- The instance pages loop (src/wmienumall.cxx lines 452-470): pages are
processed in order, stopping at the first error. -/
def instPagesLoop (pp : Pattern) (cn : String) :
    List (List InstObj) → List WmiInstance × Option String
  | [] => ([], none)
  | pg :: rest =>
    let a := instItems pp cn pg
    match a.2 with
    | some e => (a.1, some e)
    | none =>
      let b := instPagesLoop pp cn rest
      (a.1 ++ b.1, b.2)

/-- Sequencing of accumulated records with a trailing failure: if the loop
body already failed, that failure stands; otherwise the trailing error (from
the page fetch that ended the loop) applies. -/
def andThenErr {α : Type} (a : List α × Option String) (tailErr : Option String) :
    List α × Option String :=
  match a.2 with
  | some e => (a.1, some e)
  | none => (a.1, tailErr)

/-- Enumerating all instances of one matched class (src/wmienumall.cxx lines
451-470): `CreateInstanceEnum` can throw; then the paged instance loop runs
over the pages the OS delivers, and a page-fetch failure surfaces after the
previously fetched pages were processed. -/
def instancesOfClass (w : World) (pp : Pattern) (cn : String) :
    List WmiInstance × Option String :=
  match w.instEnumErr cn with
  | some e => ([], some e)
  | none =>
    let pr := enumPages (w.instCalls cn)
    andThenErr (instPagesLoop pp cn pr.1) pr.2

/-- Processing of one class object (src/wmienumall.cxx lines 438-471): read
`__CLASS` (an empty optional throws `std::bad_optional_access`), test it with
`std::regex_match` against the class pattern, and if it matches walk the
instances of that class. -/
def processClassItem (w : World) (cp pp : Pattern) (item : ClassObj) :
    List WmiInstance × Option String :=
  match item.getClassRes with
  | none => ([], some badOptionalMsg)
  | some cn =>
    if cp.accepts cn then instancesOfClass w pp cn else ([], none)

/-- Processing of the class objects of one delivered page in order, stopping
at the first error. -/
def classItems (w : World) (cp pp : Pattern) : List ClassObj → List WmiInstance × Option String
  | [] => ([], none)
  | it :: rest =>
    let a := processClassItem w cp pp it
    match a.2 with
    | some e => (a.1, some e)
    | none =>
      let b := classItems w cp pp rest
      (a.1 ++ b.1, b.2)

/-- The class pages loop (src/wmienumall.cxx lines 436-473). -/
def classPagesLoop (w : World) (cp pp : Pattern) :
    List (List ClassObj) → List WmiInstance × Option String
  | [] => ([], none)
  | pg :: rest =>
    let a := classItems w cp pp pg
    match a.2 with
    | some e => (a.1, some e)
    | none =>
      let b := classPagesLoop w cp pp rest
      (a.1 ++ b.1, b.2)

/-- The body of the `try` block of `WmiEnum_new` (src/wmienumall.cxx lines
428-473), as the pair of the records appended to `output->instances` before
the first failure and the message of that failure (or `none` when the walk
ran to exhaustion): construct the two regexes (an invalid one throws
`std::regex_error` before anything else), construct `Services`, set the proxy
blanket, create the class enumerator, then run the paged class loop. -/
def wmiRun (w : World) (cp pp : Pattern) : List WmiInstance × Option String :=
  match cp.valid, pp.valid with
  | false, _ => ([], some regexErrorMsg)
  | true, false => ([], some regexErrorMsg)
  | true, true =>
    match w.servicesErr with
    | some e => ([], some e)
    | none =>
      match w.blanketErr with
      | some e => ([], some e)
      | none =>
        match w.classEnumErr with
        | some e => ([], some e)
        | none =>
          let pr := enumPages w.classCalls
          andThenErr (classPagesLoop w cp pp pr.1) pr.2

/-- `WmiEnum_new` (src/wmienumall.cxx lines 426-479): the try block populates
`output->instances`; the catch handler stores `e.what()` in `output->error`
and leaves the instances in place; a (non-null) `WmiEnum` is returned in
every case. -/
def WmiEnum_new (w : World) (cp pp : Pattern) : WmiEnum :=
  ⟨(wmiRun w cp pp).2, (wmiRun w cp pp).1⟩

/-- The second definition of `WmiEnum_new` in the source (src/wmienumall.cxx
lines 1332-1372): same walk, but its catch handler also runs
`output->instances.clear()`, discarding the records gathered before the
failure. -/
def WmiEnum_new_v2 (w : World) (cp pp : Pattern) : WmiEnum :=
  match (wmiRun w cp pp).2 with
  | some e => ⟨some e, []⟩
  | none => ⟨none, (wmiRun w cp pp).1⟩

/-- `WmiEnum_error` (src/wmienumall.cxx lines 481-487): the stored error
message, or null (`none`) when there is none. -/
def WmiEnum_error (wmiEnum : WmiEnum) : Option String :=
  wmiEnum.error

/-- `WmiEnum_instanceCount` (src/wmienumall.cxx lines 493-495). -/
def WmiEnum_instanceCount (wmiEnum : WmiEnum) : Nat :=
  wmiEnum.instances.length

/-- `WmiEnum_instanceClassName` (src/wmienumall.cxx lines 497-502): the
class name of the indexed instance, or null (`none`) when the index is out of
range. -/
def WmiEnum_instanceClassName (wmiEnum : WmiEnum) (instance_ : Nat) : Option String :=
  match wmiEnum.instances[instance_]? with
  | some inst => some inst.className
  | none => none

/-- `WmiEnum_instancePropertyCount` (src/wmienumall.cxx lines 504-509):
the property count of the indexed instance, or 0 when the index is out of
range. -/
def WmiEnum_instancePropertyCount (wmiEnum : WmiEnum) (instance_ : Nat) : Nat :=
  match wmiEnum.instances[instance_]? with
  | some inst => inst.properties.length
  | none => 0

/-- `WmiEnum_instancePropertyKey` (src/wmienumall.cxx lines 510-518). -/
def WmiEnum_instancePropertyKey (wmiEnum : WmiEnum) (instance_ property : Nat) :
    Option String :=
  match wmiEnum.instances[instance_]? with
  | some inst =>
    match inst.properties[property]? with
    | some pr => some pr.1
    | none => none
  | none => none

/-- `WmiEnum_instancePropertyValue` (src/wmienumall.cxx lines 519-527). -/
def WmiEnum_instancePropertyValue (wmiEnum : WmiEnum) (instance_ property : Nat) :
    Option String :=
  match wmiEnum.instances[instance_]? with
  | some inst =>
    match inst.properties[property]? with
    | some pr => some pr.2
    | none => none
  | none => none

/-! ### The walk as raw exception semantics

The functions below give the meaning of the `try` block of `WmiEnum_new`
before the `catch` handler is applied: exceptions propagate outward through
every loop level as `Except.error`.  They are used to state that the catch
handler converts every such propagating exception into the stored message. -/

/-- Exception-propagating semantics of the inner instance loop. -/
def instItemsE (pp : Pattern) (cn : String) : List InstObj → Except String (List WmiInstance)
  | [] => Except.ok []
  | i :: rest =>
    match processInstance pp cn i with
    | Except.error e => Except.error e
    | Except.ok wi =>
      match instItemsE pp cn rest with
      | Except.error e => Except.error e
      | Except.ok l => Except.ok (wi :: l)

/-- Exception-propagating semantics of the instance pages loop. -/
def instPagesE (pp : Pattern) (cn : String) : List (List InstObj) → Except String (List WmiInstance)
  | [] => Except.ok []
  | pg :: rest =>
    match instItemsE pp cn pg with
    | Except.error e => Except.error e
    | Except.ok l =>
      match instPagesE pp cn rest with
      | Except.error e => Except.error e
      | Except.ok l2 => Except.ok (l ++ l2)

/-- Exception-propagating semantics of enumerating one class's instances. -/
def instancesOfClassE (w : World) (pp : Pattern) (cn : String) :
    Except String (List WmiInstance) :=
  match w.instEnumErr cn with
  | some e => Except.error e
  | none =>
    let pr := enumPages (w.instCalls cn)
    match instPagesE pp cn pr.1 with
    | Except.error e => Except.error e
    | Except.ok l =>
      match pr.2 with
      | some e => Except.error e
      | none => Except.ok l

/-- Exception-propagating semantics of processing one class object. -/
def processClassItemE (w : World) (cp pp : Pattern) (item : ClassObj) :
    Except String (List WmiInstance) :=
  match item.getClassRes with
  | none => Except.error badOptionalMsg
  | some cn =>
    if cp.accepts cn then instancesOfClassE w pp cn else Except.ok []

/-- Exception-propagating semantics of one class page. -/
def classItemsE (w : World) (cp pp : Pattern) : List ClassObj → Except String (List WmiInstance)
  | [] => Except.ok []
  | it :: rest =>
    match processClassItemE w cp pp it with
    | Except.error e => Except.error e
    | Except.ok l =>
      match classItemsE w cp pp rest with
      | Except.error e => Except.error e
      | Except.ok l2 => Except.ok (l ++ l2)

/-- Exception-propagating semantics of the class pages loop. -/
def classPagesE (w : World) (cp pp : Pattern) :
    List (List ClassObj) → Except String (List WmiInstance)
  | [] => Except.ok []
  | pg :: rest =>
    match classItemsE w cp pp pg with
    | Except.error e => Except.error e
    | Except.ok l =>
      match classPagesE w cp pp rest with
      | Except.error e => Except.error e
      | Except.ok l2 => Except.ok (l ++ l2)

/-- Exception-propagating semantics of the whole `try` block of
`WmiEnum_new`: the records of a run that reached exhaustion, or the exception
that escaped the walk. -/
def excRun (w : World) (cp pp : Pattern) : Except String (List WmiInstance) :=
  match cp.valid, pp.valid with
  | false, _ => Except.error regexErrorMsg
  | true, false => Except.error regexErrorMsg
  | true, true =>
    match w.servicesErr with
    | some e => Except.error e
    | none =>
      match w.blanketErr with
      | some e => Except.error e
      | none =>
        match w.classEnumErr with
        | some e => Except.error e
        | none =>
          let pr := enumPages w.classCalls
          match classPagesE w cp pp pr.1 with
          | Except.error e => Except.error e
          | Except.ok l =>
            match pr.2 with
            | some e => Except.error e
            | none => Except.ok l

/-- Forgets the partial records of an accumulating result, keeping only the
exception view: a failed run is the escaping exception, a successful run is
its records. -/
def toExc {α : Type} (r : List α × Option String) : Except String (List α) :=
  match r.2 with
  | some e => Except.error e
  | none => Except.ok r.1

/-! ### Concrete example data -/

/-- A valid pattern that whole-matches every name (such as `".*"`). -/
def pAll : Pattern := ⟨true, fun _ => true⟩

/-- An invalid pattern: its `std::wregex` constructor throws. -/
def pBad : Pattern := ⟨false, fun _ => false⟩

/-- A world in which the walk gathers one record (class `"A"`, one instance,
no properties) and then fails: the second class object's `__CLASS` read
fails, so `.value()` throws `std::bad_optional_access`. -/
def cw : World :=
  ⟨none, none, none,
    [Except.ok [⟨some ("A")⟩, ⟨none⟩]],
    fun _ => none,
    fun _ => [Except.ok [⟨none, []⟩]]⟩

/-- A world with one class `"A"` whose single instance carries one property
`"P"` whose variant value is `VT_NULL` (it stringifies to zero strings). -/
def w4 : World :=
  ⟨none, none, none,
    [Except.ok [⟨some ("A")⟩]],
    fun _ => none,
    fun _ => [Except.ok [⟨none, [Except.ok ⟨("P"), VarValue.vnull⟩]⟩]]⟩

/-- A world with one class `"A"` whose single instance carries one scalar
property `"K"` converting to `"V"`; the walk completes without error. -/
def w5 : World :=
  ⟨none, none, none,
    [Except.ok [⟨some ("A")⟩]],
    fun _ => none,
    fun _ => [Except.ok [⟨none, [Except.ok ⟨("K"), VarValue.scalar (Except.ok ("V"))⟩]⟩]]⟩

/-- A one-page class enumerator source. -/
def csrc0 : EnumSource ClassObj := [Except.ok [⟨some ("A")⟩]]

/-- A fixed result object with one instance and no properties. -/
def e0 : WmiEnum := ⟨none, [⟨("A"), []⟩]⟩

/-! ### Correspondence between the accumulating walk and its exception view -/

theorem andThenErr_fst {α : Type} (a : List α × Option String) (t : Option String) :
    (andThenErr a t).1 = a.1 := by
  rcases a with ⟨l, err⟩
  cases err <;> rfl

theorem instItemsE_eq (pp : Pattern) (cn : String) (l : List InstObj) :
    instItemsE pp cn l = toExc (instItems pp cn l) := by
  induction l with
  | nil => rfl
  | cons i rest ih =>
    simp only [instItemsE, instItems]
    cases hi : processInstance pp cn i with
    | error e => simp [toExc]
    | ok wi =>
      rw [ih]
      rcases hr : instItems pp cn rest with ⟨l2, err⟩
      cases err <;> simp [toExc]

theorem instPagesE_eq (pp : Pattern) (cn : String) (pages : List (List InstObj)) :
    instPagesE pp cn pages = toExc (instPagesLoop pp cn pages) := by
  induction pages with
  | nil => rfl
  | cons pg rest ih =>
    simp only [instPagesE, instPagesLoop, instItemsE_eq]
    rcases ha : instItems pp cn pg with ⟨l, err⟩
    cases err with
    | some e => simp [toExc]
    | none =>
      rw [ih]
      rcases hb : instPagesLoop pp cn rest with ⟨l2, err2⟩
      cases err2 <;> simp [toExc]

theorem instancesOfClassE_eq (w : World) (pp : Pattern) (cn : String) :
    instancesOfClassE w pp cn = toExc (instancesOfClass w pp cn) := by
  simp only [instancesOfClassE, instancesOfClass]
  cases w.instEnumErr cn with
  | some e => simp [toExc]
  | none =>
    simp only [instPagesE_eq]
    rcases ha : instPagesLoop pp cn (enumPages (w.instCalls cn)).1 with ⟨l, err⟩
    cases err with
    | some e => simp [toExc, andThenErr]
    | none =>
      cases hp : (enumPages (w.instCalls cn)).2 <;> simp [toExc, andThenErr, hp]

theorem processClassItemE_eq (w : World) (cp pp : Pattern) (item : ClassObj) :
    processClassItemE w cp pp item = toExc (processClassItem w cp pp item) := by
  simp only [processClassItemE, processClassItem]
  cases item.getClassRes with
  | none => rfl
  | some cn =>
    cases hm : cp.accepts cn <;> simp [toExc, instancesOfClassE_eq, hm]

theorem classItemsE_eq (w : World) (cp pp : Pattern) (l : List ClassObj) :
    classItemsE w cp pp l = toExc (classItems w cp pp l) := by
  induction l with
  | nil => rfl
  | cons it rest ih =>
    simp only [classItemsE, classItems, processClassItemE_eq]
    rcases ha : processClassItem w cp pp it with ⟨l1, err⟩
    cases err with
    | some e => simp [toExc]
    | none =>
      rw [ih]
      rcases hb : classItems w cp pp rest with ⟨l2, err2⟩
      cases err2 <;> simp [toExc]

theorem classPagesE_eq (w : World) (cp pp : Pattern) (pages : List (List ClassObj)) :
    classPagesE w cp pp pages = toExc (classPagesLoop w cp pp pages) := by
  induction pages with
  | nil => rfl
  | cons pg rest ih =>
    simp only [classPagesE, classPagesLoop, classItemsE_eq]
    rcases ha : classItems w cp pp pg with ⟨l1, err⟩
    cases err with
    | some e => simp [toExc]
    | none =>
      rw [ih]
      rcases hb : classPagesLoop w cp pp rest with ⟨l2, err2⟩
      cases err2 <;> simp [toExc]

theorem excRun_eq (w : World) (cp pp : Pattern) :
    excRun w cp pp = toExc (wmiRun w cp pp) := by
  simp only [excRun, wmiRun]
  cases cp.valid with
  | false => rfl
  | true =>
    cases pp.valid with
    | false => rfl
    | true =>
      cases w.servicesErr with
      | some e => rfl
      | none =>
        cases w.blanketErr with
        | some e => rfl
        | none =>
          cases w.classEnumErr with
          | some e => rfl
          | none =>
            simp only [classPagesE_eq]
            rcases ha : classPagesLoop w cp pp (enumPages w.classCalls).1 with ⟨l, err⟩
            cases err with
            | some e => simp [toExc, andThenErr]
            | none =>
              cases hp : (enumPages w.classCalls).2 <;> simp [toExc, andThenErr, hp]

/-! ### Every recorded name passed its regex test -/

/-- Every key of the list whole-matches the property pattern. -/
def PropsOk (pp : Pattern) (l : List (String × String)) : Prop :=
  ∀ kv ∈ l, pp.accepts kv.1 = true

/-- Every record belongs to the given class and its keys pass the property
pattern. -/
def ClassInstsOk (pp : Pattern) (cn : String) (l : List WmiInstance) : Prop :=
  ∀ wi ∈ l, wi.className = cn ∧ PropsOk pp wi.properties

/-- Every record's class name passes the class pattern and its keys pass the
property pattern. -/
def InstsOk (cp pp : Pattern) (l : List WmiInstance) : Prop :=
  ∀ wi ∈ l, cp.accepts wi.className = true ∧ PropsOk pp wi.properties

theorem propLoop_ok (pp : Pattern) (src : PropSource) :
    ∀ res, propLoop pp src = Except.ok res → PropsOk pp res := by
  induction src with
  | nil =>
    intro res h
    simp only [propLoop] at h
    cases h
    intro kv hkv
    cases hkv
  | cons hd tl ih =>
    intro res h
    cases hd with
    | error e => simp [propLoop] at h
    | ok pe =>
      simp only [propLoop] at h
      cases hm : pp.accepts pe.name with
      | false =>
        rw [hm] at h
        simp only [Bool.false_eq_true, if_false] at h
        exact ih res h
      | true =>
        rw [hm] at h
        simp only [if_true] at h
        cases hg : getString pe.value with
        | error e => rw [hg] at h; cases h
        | ok s =>
          rw [hg] at h
          cases hpl : propLoop pp tl with
          | error e => rw [hpl] at h; cases h
          | ok l2 =>
            rw [hpl] at h
            cases h
            intro kv hkv
            rcases List.mem_cons.mp hkv with h1 | h1
            · cases h1; exact hm
            · exact ih l2 hpl kv h1

theorem processInstance_ok (pp : Pattern) (cn : String) (i : InstObj) (wi : WmiInstance) :
    processInstance pp cn i = Except.ok wi →
    wi.className = cn ∧ PropsOk pp wi.properties := by
  intro h
  simp only [processInstance] at h
  cases hb : i.beginErr with
  | some e => rw [hb] at h; cases h
  | none =>
    rw [hb] at h
    cases hp : propLoop pp i.props with
    | error e => rw [hp] at h; cases h
    | ok props =>
      rw [hp] at h
      cases h
      exact ⟨rfl, propLoop_ok pp i.props props hp⟩

theorem instItems_ok (pp : Pattern) (cn : String) (l : List InstObj) :
    ClassInstsOk pp cn (instItems pp cn l).1 := by
  induction l with
  | nil => intro wi hwi; cases hwi
  | cons i rest ih =>
    intro wi hwi
    simp only [instItems] at hwi
    cases hp : processInstance pp cn i with
    | error e => rw [hp] at hwi; cases hwi
    | ok wi2 =>
      rw [hp] at hwi
      rcases List.mem_cons.mp hwi with h1 | h1
      · subst h1
        exact processInstance_ok pp cn i _ hp
      · exact ih wi h1

theorem instPagesLoop_ok (pp : Pattern) (cn : String) (pages : List (List InstObj)) :
    ClassInstsOk pp cn (instPagesLoop pp cn pages).1 := by
  induction pages with
  | nil => intro wi hwi; cases hwi
  | cons pg rest ih =>
    intro wi hwi
    simp only [instPagesLoop] at hwi
    cases ha : (instItems pp cn pg).2 with
    | some e =>
      rw [ha] at hwi
      exact instItems_ok pp cn pg wi hwi
    | none =>
      rw [ha] at hwi
      rcases List.mem_append.mp hwi with h1 | h1
      · exact instItems_ok pp cn pg wi h1
      · exact ih wi h1

theorem instancesOfClass_ok (w : World) (pp : Pattern) (cn : String) :
    ClassInstsOk pp cn (instancesOfClass w pp cn).1 := by
  intro wi hwi
  simp only [instancesOfClass] at hwi
  cases he : w.instEnumErr cn with
  | some e => rw [he] at hwi; cases hwi
  | none =>
    rw [he] at hwi
    rw [andThenErr_fst] at hwi
    exact instPagesLoop_ok pp cn (enumPages (w.instCalls cn)).1 wi hwi

theorem processClassItem_ok (w : World) (cp pp : Pattern) (item : ClassObj) :
    InstsOk cp pp (processClassItem w cp pp item).1 := by
  intro wi hwi
  cases hc : item.getClassRes with
  | none => simp [processClassItem, hc] at hwi
  | some cn =>
    cases hm : cp.accepts cn with
    | false => simp [processClassItem, hc, hm] at hwi
    | true =>
      simp only [processClassItem, hc, hm, if_true] at hwi
      rcases instancesOfClass_ok w pp cn wi hwi with ⟨h1, h2⟩
      rw [h1]
      exact ⟨hm, h2⟩

theorem classItems_ok (w : World) (cp pp : Pattern) (l : List ClassObj) :
    InstsOk cp pp (classItems w cp pp l).1 := by
  induction l with
  | nil => intro wi hwi; cases hwi
  | cons it rest ih =>
    intro wi hwi
    simp only [classItems] at hwi
    cases ha : (processClassItem w cp pp it).2 with
    | some e =>
      rw [ha] at hwi
      exact processClassItem_ok w cp pp it wi hwi
    | none =>
      rw [ha] at hwi
      rcases List.mem_append.mp hwi with h1 | h1
      · exact processClassItem_ok w cp pp it wi h1
      · exact ih wi h1

theorem classPagesLoop_ok (w : World) (cp pp : Pattern) (pages : List (List ClassObj)) :
    InstsOk cp pp (classPagesLoop w cp pp pages).1 := by
  induction pages with
  | nil => intro wi hwi; cases hwi
  | cons pg rest ih =>
    intro wi hwi
    simp only [classPagesLoop] at hwi
    cases ha : (classItems w cp pp pg).2 with
    | some e =>
      rw [ha] at hwi
      exact classItems_ok w cp pp pg wi hwi
    | none =>
      rw [ha] at hwi
      rcases List.mem_append.mp hwi with h1 | h1
      · exact classItems_ok w cp pp pg wi h1
      · exact ih wi h1

theorem wmiRun_ok (w : World) (cp pp : Pattern) :
    InstsOk cp pp (wmiRun w cp pp).1 := by
  intro wi hwi
  cases hv : cp.valid with
  | false => simp [wmiRun, hv] at hwi
  | true =>
    cases hv2 : pp.valid with
    | false => simp [wmiRun, hv, hv2] at hwi
    | true =>
      cases hs : w.servicesErr with
      | some e => simp [wmiRun, hv, hv2, hs] at hwi
      | none =>
        cases hb : w.blanketErr with
        | some e => simp [wmiRun, hv, hv2, hs, hb] at hwi
        | none =>
          cases hc : w.classEnumErr with
          | some e => simp [wmiRun, hv, hv2, hs, hb, hc] at hwi
          | none =>
            simp only [wmiRun, hv, hv2, hs, hb, hc, andThenErr_fst] at hwi
            exact classPagesLoop_ok w cp pp (enumPages w.classCalls).1 wi hwi

/-- Every page of the loop over an enumerator source has at most 128
elements. -/
theorem enumPages_le {α : Type} (src : EnumSource α) :
    ∀ pg ∈ (enumPages src).1, pg.length ≤ 128 := by
  induction src with
  | nil => intro pg h; cases h
  | cons hd rest ih =>
    intro pg h
    cases hd with
    | error e => cases h
    | ok page =>
      simp only [enumPages] at h
      cases he : (page.take 128).isEmpty with
      | true => rw [he] at h; simp at h
      | false =>
        rw [he] at h
        simp only [Bool.false_eq_true, if_false] at h
        rcases List.mem_cons.mp h with h1 | h1
        · cases h1
          calc (page.take 128).length = min 128 page.length := List.length_take 128 page
            _ ≤ 128 := Nat.min_le_left 128 page.length
        · exact ih pg h1

/-! ### The claims -/

/-- C1: `WmiEnum_new` never propagates an exception and always returns a
result object: whatever the patterns and the behaviour of the underlying WMI
calls, when the walk's exception semantics completes with records the result
object carries exactly those records and no error, and when an exception
escapes the walk the catch handler stores its message on the returned object
(alongside the records already appended) instead of propagating it. -/
theorem wmiEnumNew_catches_exceptions (w : World) (cp pp : Pattern) :
    (∀ l, excRun w cp pp = Except.ok l → WmiEnum_new w cp pp = ⟨none, l⟩) ∧
    (∀ e, excRun w cp pp = Except.error e →
      WmiEnum_new w cp pp = ⟨some e, (wmiRun w cp pp).1⟩) := by
  have hq := excRun_eq w cp pp
  constructor
  · intro l hl
    rw [hq] at hl
    rcases hr : wmiRun w cp pp with ⟨recs, err⟩
    rw [hr] at hl
    cases err with
    | none =>
      simp only [toExc, Except.ok.injEq] at hl
      simp [WmiEnum_new, hr, hl]
    | some e => simp [toExc] at hl
  · intro e he
    rw [hq] at he
    rcases hr : wmiRun w cp pp with ⟨recs, err⟩
    rw [hr] at he
    cases err with
    | none => simp [toExc] at he
    | some e2 =>
      simp only [toExc, Except.error.injEq] at he
      simp [WmiEnum_new, hr, he]

/-- Witness for C1: in the world `cw` the walk gathers one record and then
the `__CLASS` read of the second class object throws; the returned object
carries the message and is a valid result. -/
theorem wmiEnumNew_catches_witness :
    WmiEnum_new cw pAll pAll = ⟨some badOptionalMsg, (wmiRun cw pAll pAll).1⟩ :=
  (wmiEnumNew_catches_exceptions cw pAll pAll).2 badOptionalMsg (by rfl)

/-- C2: bounds-checked accessors: for every result object, an instance index
at or past the instance count makes the class-name accessor return null and
the property-count accessor return 0; and for every in-range instance index,
a property index at or past that instance's property count makes both the
key and the value accessor return null. -/
theorem accessors_bounds_checked (e : WmiEnum) (i p : Nat) :
    (WmiEnum_instanceCount e ≤ i →
      WmiEnum_instanceClassName e i = none ∧ WmiEnum_instancePropertyCount e i = 0) ∧
    (i < WmiEnum_instanceCount e → WmiEnum_instancePropertyCount e i ≤ p →
      WmiEnum_instancePropertyKey e i p = none ∧
      WmiEnum_instancePropertyValue e i p = none) := by
  constructor
  · intro h
    have hi : e.instances[i]? = none := List.getElem?_eq_none h
    simp [WmiEnum_instanceClassName, WmiEnum_instancePropertyCount, hi]
  · intro hlt hp
    cases h2 : e.instances[i]? with
    | none => simp [WmiEnum_instancePropertyKey, WmiEnum_instancePropertyValue, h2]
    | some inst =>
      have hcount : WmiEnum_instancePropertyCount e i = inst.properties.length := by
        simp [WmiEnum_instancePropertyCount, h2]
      rw [hcount] at hp
      have hpn : inst.properties[p]? = none := List.getElem?_eq_none hp
      simp [WmiEnum_instancePropertyKey, WmiEnum_instancePropertyValue, h2, hpn]

/-- Witness for C2: concrete out-of-range accesses on a one-instance result
object return null and 0. -/
theorem accessors_bounds_witness :
    (WmiEnum_instanceClassName e0 5 = none ∧ WmiEnum_instancePropertyCount e0 5 = 0) ∧
    (WmiEnum_instancePropertyKey e0 0 3 = none ∧
      WmiEnum_instancePropertyValue e0 0 3 = none) :=
  ⟨(accessors_bounds_checked e0 5 3).1 (by decide),
    (accessors_bounds_checked e0 0 3).2 (by decide) (by decide)⟩

/-- Counterexample to C3 as stated: in the world `cw` the walk gathers the
record for class `"A"` and then fails, yet the second definition of
`WmiEnum_new` in the source (whose catch handler runs
`output->instances.clear()`, src/wmienumall.cxx lines 1367-1370) returns the
error with an empty instance list: the record gathered before the failure is
not contained in the returned object. -/
theorem partial_preservation_cex :
    (wmiRun cw pAll pAll).1 = [⟨("A"), []⟩] ∧
    (wmiRun cw pAll pAll).2 = some badOptionalMsg ∧
    WmiEnum_new_v2 cw pAll pAll = ⟨some badOptionalMsg, []⟩ :=
  ⟨rfl, rfl, rfl⟩

/-- C3 (amended): when a failure occurs during the walk, the first
`WmiEnum_new` (src/wmienumall.cxx lines 426-479) sets the error field and
keeps every record gathered before the failure, while the second variant
(lines 1332-1372) sets the error field and clears the instance list. -/
theorem partial_preservation_amended (w : World) (cp pp : Pattern) (e : String)
    (h : (wmiRun w cp pp).2 = some e) :
    (WmiEnum_new w cp pp).error = some e ∧
    (WmiEnum_new w cp pp).instances = (wmiRun w cp pp).1 ∧
    (WmiEnum_new_v2 w cp pp).error = some e ∧
    (WmiEnum_new_v2 w cp pp).instances = [] := by
  refine ⟨h, rfl, ?_, ?_⟩ <;> simp [WmiEnum_new_v2, h]

/-- Witness for C3 (amended): the failing run in world `cw`. -/
theorem partial_preservation_witness :
    (WmiEnum_new cw pAll pAll).error = some badOptionalMsg ∧
    (WmiEnum_new cw pAll pAll).instances = (wmiRun cw pAll pAll).1 ∧
    (WmiEnum_new_v2 cw pAll pAll).error = some badOptionalMsg ∧
    (WmiEnum_new_v2 cw pAll pAll).instances = [] :=
  partial_preservation_amended cw pAll pAll badOptionalMsg (by rfl)

/-- Counterexample to C4 as stated: a matched property whose `VT_NULL` value
stringifies to zero strings is not dropped: the property loop records it
with the empty string as its value, and the full pipeline exposes that
record. -/
theorem zero_string_drop_cex :
    getStrings VarValue.vnull = Except.ok [] ∧
    propLoop pAll [Except.ok ⟨("P"), VarValue.vnull⟩] = Except.ok [(("P"), (""))] ∧
    (WmiEnum_new w4 pAll pAll).error = none ∧
    (WmiEnum_new w4 pAll pAll).instances = [⟨("A"), [(("P"), (""))]⟩] :=
  ⟨rfl, rfl, rfl, rfl⟩

/-- C4 (amended): a matched property whose value stringifies to zero
elements is recorded with the empty string as its value (the join of zero
strings), not dropped from the property list. -/
theorem zero_string_recorded_amended (pp : Pattern) (nm : String) (v : VarValue)
    (rest : PropSource) (hm : pp.accepts nm = true)
    (hz : getStrings v = Except.ok []) :
    propLoop pp (Except.ok ⟨nm, v⟩ :: rest) =
      (propLoop pp rest).map (fun l => (nm, "") :: l) := by
  have hg : getString v = Except.ok ("") := by
    simp [getString, hz, joinStrings]
  simp only [propLoop, hm, if_true, hg]
  cases propLoop pp rest <;> rfl

/-- Witness for C4 (amended): the null-valued property `"P"` is recorded as
`("P", "")`. -/
theorem zero_string_recorded_witness :
    propLoop pAll [Except.ok ⟨("P"), VarValue.vnull⟩] =
      (propLoop pAll []).map (fun l => (("P"), "") :: l) :=
  zero_string_recorded_amended pAll ("P") VarValue.vnull [] (by rfl) (by rfl)

/-- C5: whole-string filtering round-trip: for every result produced without
error, every recorded instance's class name whole-matches the class pattern
and every recorded property key whole-matches the property pattern. -/
theorem recorded_names_match_patterns (w : World) (cp pp : Pattern)
    (_herr : (WmiEnum_new w cp pp).error = none) :
    ∀ inst ∈ (WmiEnum_new w cp pp).instances,
      cp.accepts inst.className = true ∧
      ∀ kv ∈ inst.properties, pp.accepts kv.1 = true := by
  intro inst hinst
  have hh := wmiRun_ok w cp pp inst hinst
  exact ⟨hh.1, fun kv hkv => hh.2 kv hkv⟩

/-- Witness for C5: the clean run in world `w5` records class `"A"`, whose
name the class pattern accepts. -/
theorem recorded_names_match_witness : pAll.accepts ("A") = true :=
  (recorded_names_match_patterns w5 pAll pAll (by rfl)
    ⟨("A"), [(("K"), ("V"))]⟩ (by decide)).1

/-- Counterexample to C6 as stated: `VT_BOOL` (11) is not the string type
`VT_BSTR` (8), yet its bit pattern contains the `VT_BSTR` bit, so the code's
bitmask test `type & VT_BSTR` (src/wmienumall.cxx line 227) sends a boolean
array down the BSTR branch: the SAFEARRAY data is read (as BSTR pointers)
and yields one output string per element — not zero output strings — and the
per-element strings are joined like a string array's. -/
theorem array_nonstring_cex :
    (VT_BOOL == VT_BSTR) = false ∧
    (VT_BOOL &&& VT_BSTR) = VT_BSTR ∧
    getStrings (VarValue.varray VT_BOOL (Except.ok [("x")])) = Except.ok [("x")] ∧
    getString (VarValue.varray VT_BOOL (Except.ok [("x"), ("y")])) = Except.ok ("x, y") :=
  ⟨rfl, rfl, rfl, rfl⟩

/-- C6 (amended): an array whose element VARTYPE contains the `VT_BSTR` bit
— `VT_BSTR` itself, but also the non-string types `VT_DISPATCH`, `VT_ERROR`,
`VT_BOOL`, `VT_VARIANT`, `VT_UNKNOWN` and `VT_DECIMAL` — takes the string
branch: its SAFEARRAY data is read as BSTRs and the conversion yields those
strings joined by `", "` in array order (a three-element string array yields
exactly the three elements joined by `", "`).  Only an array whose element
VARTYPE lacks the `VT_BSTR` bit (for instance the numeric types `VT_I2`,
`VT_I4`, `VT_R4`, `VT_R8`) yields zero output strings. -/
theorem array_stringification_amended (a b c : String) (elems : List String)
    (vt : Nat) (rd : Except String (List String)) :
    getString (VarValue.varray VT_BSTR (Except.ok elems)) = Except.ok (joinStrings elems) ∧
    getString (VarValue.varray VT_BSTR (Except.ok [a, b, c])) =
      Except.ok (a ++ ", " ++ b ++ ", " ++ c) ∧
    ((vt &&& VT_BSTR) = 0 → getStrings (VarValue.varray vt rd) = Except.ok []) ∧
    ((vt &&& VT_BSTR) ≠ 0 → getStrings (VarValue.varray vt rd) = rd) := by
  refine ⟨rfl, ?_, ?_, ?_⟩
  · show Except.ok (joinStrings [a, b, c]) = _
    simp only [joinStrings, List.foldl]
  · intro h
    simp [getStrings, h]
  · intro h
    cases rd <;> simp [getStrings, h]

/-- Witness for C6 (amended): a `VT_I4` array (bit test fails) yields zero
strings, a `VT_BOOL` array (bit test passes) yields its read elements. -/
theorem array_stringification_witness :
    getStrings (VarValue.varray VT_I4 (Except.ok [("z")])) = Except.ok [] ∧
    getStrings (VarValue.varray VT_BOOL (Except.ok [("z")])) = Except.ok [("z")] :=
  ⟨(array_stringification_amended ("") ("") ("") [] VT_I4 (Except.ok [("z")])).2.2.1
      (by decide),
    (array_stringification_amended ("") ("") ("") [] VT_BOOL (Except.ok [("z")])).2.2.2
      (by decide)⟩

/-- C7: invalid-pattern fail-fast: when either pattern's regex constructor
throws, `WmiEnum_new` reports a non-null error and an instance count of 0,
and its result does not depend on the WMI world at all (nothing past the
regex construction runs). -/
theorem invalid_pattern_fail_fast (w w2 : World) (cp pp : Pattern)
    (h : cp.valid = false ∨ pp.valid = false) :
    WmiEnum_error (WmiEnum_new w cp pp) = some regexErrorMsg ∧
    WmiEnum_instanceCount (WmiEnum_new w cp pp) = 0 ∧
    WmiEnum_new w cp pp = WmiEnum_new w2 cp pp := by
  cases hv : cp.valid with
  | false =>
    simp [WmiEnum_new, WmiEnum_error, WmiEnum_instanceCount, wmiRun, hv]
  | true =>
    cases hp : pp.valid with
    | false =>
      simp [WmiEnum_new, WmiEnum_error, WmiEnum_instanceCount, wmiRun, hv, hp]
    | true =>
      rcases h with h1 | h1
      · rw [hv] at h1; cases h1
      · rw [hp] at h1; cases h1

/-- Witness for C7: an invalid class pattern yields the error and a zero
count against two different worlds. -/
theorem invalid_pattern_witness :
    WmiEnum_error (WmiEnum_new cw pBad pAll) = some regexErrorMsg ∧
    WmiEnum_instanceCount (WmiEnum_new cw pBad pAll) = 0 ∧
    WmiEnum_new cw pBad pAll = WmiEnum_new w4 pBad pAll :=
  invalid_pattern_fail_fast cw w4 pBad pAll (Or.inl rfl)

/-- C8: paging: every page a class or instance paging loop obtains holds at
most 128 object handles (the buffer passed to each OS round-trip has 128
slots), a single `EnumWbemClasses::next` round-trip never delivers more than
128 handles, and an end-of-data signal (zero objects from the
class/instance enumerator, exhausted source for the property enumerator)
ends that enumeration level with no error. -/
theorem paging_128_and_end_of_data (csrc crest : EnumSource ClassObj)
    (isrc irest : EnumSource InstObj) (p : Pattern) :
    (∀ pg ∈ (enumPages csrc).1, pg.length ≤ 128) ∧
    (∀ pg ∈ (enumPages isrc).1, pg.length ≤ 128) ∧
    (∀ (src rest2 : EnumSource ClassObj) (page : List ClassObj),
      EnumWbemClasses_next src = Except.ok (some page, rest2) → page.length ≤ 128) ∧
    enumPages ([] : EnumSource ClassObj) = ([], none) ∧
    enumPages (Except.ok ([] : List ClassObj) :: crest) = ([], none) ∧
    enumPages ([] : EnumSource InstObj) = ([], none) ∧
    enumPages (Except.ok ([] : List InstObj) :: irest) = ([], none) ∧
    WbemClass_next [] = Except.ok none ∧
    propLoop p [] = Except.ok [] := by
  refine ⟨enumPages_le csrc, enumPages_le isrc, ?_, rfl, rfl, rfl, rfl, rfl, rfl⟩
  intro src rest2 page hnext
  cases src with
  | nil => simp [EnumWbemClasses_next] at hnext
  | cons hd tl =>
    cases hd with
    | error e => simp [EnumWbemClasses_next] at hnext
    | ok page2 =>
      simp only [EnumWbemClasses_next] at hnext
      cases he : (page2.take 128).isEmpty with
      | true => rw [he] at hnext; simp at hnext
      | false =>
        rw [he] at hnext
        simp only [Bool.false_eq_true, if_false, Except.ok.injEq, Prod.mk.injEq] at hnext
        rcases hnext with ⟨h1, h2⟩
        cases h1
        calc (page2.take 128).length = min 128 page2.length := List.length_take 128 page2
          _ ≤ 128 := Nat.min_le_left 128 page2.length

/-- Witness for C8: the single page of the concrete source `csrc0` obeys the
bound. -/
theorem paging_witness : ([(⟨some ("A")⟩ : ClassObj)]).length ≤ 128 :=
  (paging_128_and_end_of_data csrc0 [] [] [] pAll).1 [⟨some ("A")⟩] (by decide)

/-- C9: idempotence: two `WmiEnum_new` calls with identical patterns against
an unchanged underlying system (equal worlds, i.e. the WMI layer returns the
same data) produce semantically identical record sets (in fact equal results,
hence in particular a permutation of one another). -/
theorem idempotence_same_world (w1 w2 : World) (cp pp : Pattern) (h : w1 = w2) :
    List.Perm (WmiEnum_new w1 cp pp).instances (WmiEnum_new w2 cp pp).instances ∧
    WmiEnum_new w1 cp pp = WmiEnum_new w2 cp pp := by
  subst h
  exact ⟨List.Perm.refl _, rfl⟩

/-- Witness for C9: two runs against the world `w5`. -/
theorem idempotence_witness :
    List.Perm (WmiEnum_new w5 pAll pAll).instances (WmiEnum_new w5 pAll pAll).instances ∧
    WmiEnum_new w5 pAll pAll = WmiEnum_new w5 pAll pAll :=
  idempotence_same_world w5 w5 pAll pAll rfl

/-- C10: key/value accessor agreement: for every result object and index
pair, the key accessor returns null exactly when the value accessor does,
and that happens exactly when the instance index is out of range or the
property index is at or past that instance's property count. -/
theorem key_value_agreement (e : WmiEnum) (i p : Nat) :
    (WmiEnum_instancePropertyKey e i p = none ↔
      WmiEnum_instancePropertyValue e i p = none) ∧
    (WmiEnum_instancePropertyKey e i p = none ↔
      WmiEnum_instanceCount e ≤ i ∨ WmiEnum_instancePropertyCount e i ≤ p) := by
  cases hi : e.instances[i]? with
  | none =>
    have hlen : e.instances.length ≤ i := List.getElem?_eq_none_iff.mp hi
    constructor
    · simp [WmiEnum_instancePropertyKey, WmiEnum_instancePropertyValue, hi]
    · simp only [WmiEnum_instancePropertyKey, WmiEnum_instanceCount, hi]
      constructor
      · intro _; exact Or.inl hlen
      · intro _; trivial
  | some inst =>
    have hlt : i < e.instances.length := by
      rcases List.getElem?_eq_some_iff.mp hi with ⟨h1, _⟩
      exact h1
    cases hp : inst.properties[p]? with
    | none =>
      have hplen : inst.properties.length ≤ p := List.getElem?_eq_none_iff.mp hp
      constructor
      · simp [WmiEnum_instancePropertyKey, WmiEnum_instancePropertyValue, hi, hp]
      · simp only [WmiEnum_instancePropertyKey, WmiEnum_instanceCount,
          WmiEnum_instancePropertyCount, hi, hp]
        constructor
        · intro _
          exact Or.inr hplen
        · intro _; trivial
    | some pr =>
      have hplt : p < inst.properties.length := by
        rcases List.getElem?_eq_some_iff.mp hp with ⟨h1, _⟩
        exact h1
      constructor
      · simp [WmiEnum_instancePropertyKey, WmiEnum_instancePropertyValue, hi, hp]
      · simp only [WmiEnum_instancePropertyKey, WmiEnum_instanceCount,
          WmiEnum_instancePropertyCount, hi, hp]
        constructor
        · intro hfalse; cases hfalse
        · intro hor
          rcases hor with h1 | h1 <;> omega

end Wmi
